import Mathlib

/-!
Verification of the issue dependency scheduler core
(`amplifier_module_issue_manager`: `models.py`, `index.py`, `algorithms.py`,
`manager.py`).

The embedding is shallow and executable:
* Python `dict` becomes an association list (`Dict`) with insertion-order
  semantics: overwriting an existing key keeps its position, a fresh key is
  appended, `values()` is the list of second components in order.
* Python `set` becomes a duplicate-free list (`sinsert`/`sdiscard`); the
  claims settled here never depend on set iteration order.
* Timestamps (`datetime.now()`) are threaded in as a `Nat` parameter `now`;
  `metadata` values (Python `Any`) are modelled as opaque strings.
* `raise ValueError(msg)` becomes `Except.error msg`; manager operations
  return the post-call index alongside the result, so a partially applied
  mutation at the moment an exception propagates is observable.
* `networkx.DiGraph` + `nx.find_cycle` in `detect_cycle` is modelled by its
  documented semantics: a decision procedure (`hasCycleB`) for the existence
  of a directed cycle in the given edge list, proved equivalent below to the
  declarative `HasCycle`.
-/

set_option maxHeartbeats 1000000

namespace IssueManager

/-- Association-list model of a Python dict: later helpers keep at most one
entry per key and preserve insertion order. -/
abbrev Dict (α β : Type) := List (α × β)

/-- Lookup (`d.get(k)` / `d[k]`). -/
def dget {α β : Type} [DecidableEq α] : Dict α β → α → Option β
  | [], _ => none
  | kv :: d, k => if kv.1 = k then some kv.2 else dget d k

/-- Insert-or-overwrite (`d[k] = v`): an existing key keeps its position, a
fresh key is appended at the end, as CPython dicts do. -/
def dinsert {α β : Type} [DecidableEq α] : Dict α β → α → β → Dict α β
  | [], k, v => [(k, v)]
  | kv :: d, k, v => if kv.1 = k then (k, v) :: d else kv :: dinsert d k v

/-- Deletion (`d.pop(k, None)` / `del d[k]`). -/
def dremove {α β : Type} [DecidableEq α] : Dict α β → α → Dict α β
  | [], _ => []
  | kv :: d, k => if kv.1 = k then dremove d k else kv :: dremove d k

/-- Iteration over values (`d.values()`), in insertion order. -/
def dvalues {α β : Type} (d : Dict α β) : List β := d.map Prod.snd

/-- The keys of the dict (`d.keys()`). -/
def dkeys {α β : Type} (d : Dict α β) : List α := d.map Prod.fst

/-- Python `dict.update(m)`: key-wise upsert of every entry of `m`. -/
def dictUpdate {α β : Type} [DecidableEq α] (d m : Dict α β) : Dict α β :=
  m.foldl (fun acc kv => dinsert acc kv.1 kv.2) d

/-- Python `set.add`: modelled on duplicate-free lists. -/
def sinsert (s : List String) (x : String) : List String :=
  if x ∈ s then s else s ++ [x]

/-- Python `set.discard`. -/
def sdiscard (s : List String) (x : String) : List String :=
  s.filter (fun y => y ≠ x)

/-- Issue record (`models.Issue`). -/
structure Issue where
  id : String
  title : String
  description : String
  status : String
  priority : Int
  issue_type : String
  assignee : Option String
  created_at : Nat
  updated_at : Nat
  closed_at : Option Nat := none
  parent_id : Option String := none
  discovered_from : Option String := none
  blocking_notes : Option String := none
  metadata : Dict String String := []
deriving DecidableEq, Repr

/-- Dependency edge (`models.Dependency`): `from_id` is blocked by `to_id`. -/
structure Dependency where
  from_id : String
  to_id : String
  dep_type : String
  created_at : Nat
deriving DecidableEq, Repr

/-- In-memory index (`index.IssueIndex`). -/
structure IssueIndex where
  issues : Dict String Issue
  dependencies : Dict (String × String) Dependency
  blockers : Dict String (List String)
  dependents : Dict String (List String)
deriving DecidableEq, Repr

/-- The freshly constructed index (`IssueIndex.__init__`). -/
def emptyIndex : IssueIndex := ⟨[], [], [], []⟩

/-- Index operation `add_issue`. -/
def IssueIndex.add_issue (idx : IssueIndex) (issue : Issue) : IssueIndex :=
  { idx with issues := dinsert idx.issues issue.id issue }

/-- Index operation `remove_issue`. -/
def IssueIndex.remove_issue (idx : IssueIndex) (issue_id : String) : IssueIndex :=
  { idx with issues := dremove idx.issues issue_id }

/-- Index operation `get_issue`. -/
def IssueIndex.get_issue (idx : IssueIndex) (issue_id : String) : Option Issue :=
  dget idx.issues issue_id

/-- Index operation `add_dependency`: edge map plus the two adjacency maps. -/
def IssueIndex.add_dependency (idx : IssueIndex) (dep : Dependency) : IssueIndex :=
  { idx with
    dependencies := dinsert idx.dependencies (dep.from_id, dep.to_id) dep
    blockers := dinsert idx.blockers dep.from_id
      (sinsert ((dget idx.blockers dep.from_id).getD []) dep.to_id)
    dependents := dinsert idx.dependents dep.to_id
      (sinsert ((dget idx.dependents dep.to_id).getD []) dep.from_id) }

/-- Pruning step of `remove_dependency` on one adjacency map: discard `x`
from the set at key `k` (if any), deleting the entry once the set is empty. -/
def pruneAdj (m : Dict String (List String)) (k x : String) : Dict String (List String) :=
  match dget m k with
  | none => m
  | some s =>
    let s' := sdiscard s x
    if s' = [] then dremove m k else dinsert m k s'

/-- Index operation `remove_dependency`: removes the edge and prunes each
adjacency set, deleting the entry entirely when the set becomes empty. -/
def IssueIndex.remove_dependency (idx : IssueIndex) (from_id to_id : String) : IssueIndex :=
  { idx with
    dependencies := dremove idx.dependencies (from_id, to_id)
    blockers := pruneAdj idx.blockers from_id to_id
    dependents := pruneAdj idx.dependents to_id from_id }

/-- Index operation `get_blockers` (the source returns a defensive copy;
copying is the identity here). -/
def IssueIndex.get_blockers (idx : IssueIndex) (issue_id : String) : List String :=
  (dget idx.blockers issue_id).getD []

/-- Index operation `get_dependents`. -/
def IssueIndex.get_dependents (idx : IssueIndex) (issue_id : String) : List String :=
  (dget idx.dependents issue_id).getD []

/-- Index operation `get_all_dependencies`. -/
def IssueIndex.get_all_dependencies (idx : IssueIndex) : List Dependency :=
  dvalues idx.dependencies

/-- Index operation `clear`. -/
def IssueIndex.clear (_idx : IssueIndex) : IssueIndex := emptyIndex

/-- Candidate test of `get_ready_issues`: status in {open, in_progress}. -/
def isCandidate (i : Issue) : Bool :=
  i.status = "open" || i.status = "in_progress"

/-- Body of the blocker loop in `get_ready_issues`: the id resolves to an
issue whose status is not closed. -/
def isOpenBlocker (idx : IssueIndex) (b : String) : Bool :=
  match idx.get_issue b with
  | some bl => bl.status ≠ "closed"
  | none => false

/-- The `has_open_blocker` flag computed by `get_ready_issues`. -/
def hasOpenBlocker (idx : IssueIndex) (i : Issue) : Bool :=
  (idx.get_blockers i.id).any (isOpenBlocker idx)

/-- Stable insertion into a priority-sorted list: the new element goes after
every element of priority less than or equal to its own, matching the
stability of Python `list.sort`. -/
def insertByPriority (x : Issue) : List Issue → List Issue
  | [] => [x]
  | y :: ys => if y.priority ≤ x.priority then y :: insertByPriority x ys else x :: y :: ys

/-- Stable sort by ascending priority (`ready.sort(key=lambda i: i.priority)`). -/
def sortByPriority : List Issue → List Issue
  | [] => []
  | x :: xs => insertByPriority x (sortByPriority xs)

/-- Scheduler algorithm `get_ready_issues`. -/
def get_ready_issues (idx : IssueIndex) (limit : Option Nat) : List Issue :=
  let ready := (dvalues idx.issues).filter (fun i => isCandidate i && !hasOpenBlocker idx i)
  let sorted := sortByPriority ready
  match limit with
  | none => sorted
  | some n => sorted.take n

/-- The `open_blockers` list built by `get_blocked_issues` for one issue. -/
def openBlockersOf (idx : IssueIndex) (issue_id : String) : List Issue :=
  (idx.get_blockers issue_id).filterMap fun b =>
    match idx.get_issue b with
    | some bl => if bl.status = "closed" then none else some bl
    | none => none

/-- Scheduler algorithm `get_blocked_issues`. -/
def get_blocked_issues (idx : IssueIndex) : List (Issue × List Issue) :=
  (dvalues idx.issues).filterMap fun i =>
    if i.status = "closed" then none
    else
      let obs := openBlockersOf idx i.id
      if obs.isEmpty then none else some (i, obs)

/-- Edge list of the graph `detect_cycle` builds: every dependency of every
`dep_type`, as (from_id, to_id) pairs. -/
def depEdges (idx : IssueIndex) : List (String × String) :=
  idx.get_all_dependencies.map fun d => (d.from_id, d.to_id)

/-- Successors of a vertex in an edge list. -/
def succs (E : List (String × String)) (u : String) : List String :=
  (E.filter (fun e => e.1 = u)).map Prod.snd

/-- Fuel-bounded reachability: decides the existence of a walk of at most
`fuel` edges from `u` to `v`. -/
def reachB (E : List (String × String)) : Nat → String → String → Bool
  | 0, u, v => u = v
  | fuel + 1, u, v => u = v || (succs E u).any fun w => reachB E fuel w v

/-- Decision procedure for the existence of a directed cycle in `E`: some
edge (u, v) with u reachable from v. `E.length` fuel suffices because a walk
can always be shortened to one without repeated vertices. -/
def hasCycleB (E : List (String × String)) : Bool :=
  E.any fun e => reachB E E.length e.2 e.1

/-- Scheduler algorithm `detect_cycle`: the graph of all existing dependency
edges plus the hypothetical edge `from_id → to_id` has a directed cycle. The
index is consumed read-only (the function's type has no index output). -/
def detect_cycle (idx : IssueIndex) (from_id to_id : String) : Bool :=
  hasCycleB (depEdges idx ++ [(from_id, to_id)])

/-- Declarative walk relation: `Walk E u p v` says the vertices of `p` are
visited in order by successive edges of `E` starting at `u` and ending at
`v` (so `p.length` edges are used). -/
def Walk (E : List (String × String)) : String → List String → String → Prop
  | u, [], v => u = v
  | u, w :: p, v => (u, w) ∈ E ∧ Walk E w p v

/-- Declarative statement that the directed graph with edge list `E`
contains some directed cycle: a closed walk using at least one edge. -/
def HasCycle (E : List (String × String)) : Prop :=
  ∃ u p, p ≠ [] ∧ Walk E u p u

/-- The dep_type enum accepted by `Manager.add_dependency`. -/
def validDepTypes : List String := ["blocks", "related", "parent-child", "discovered-from"]

/-- The status enum accepted by `Manager.update_issue`. -/
def validStatuses : List String := ["open", "in_progress", "blocked", "closed"]

/-- Status validation of `update_issue` (`none` means the field was not
provided and is not checked). -/
def badStatus : Option String → Bool
  | none => false
  | some s => !(s ∈ validStatuses : Bool)

/-- Priority validation of `update_issue` and `create_issue`. -/
def badPriority : Option Int → Bool
  | none => false
  | some p => p < 0 || 4 < p

/-- Apply an optional field update (`if x is not None: issue.f = x`). -/
def optApp {γ : Type} (o : Option γ) (f : γ → Issue → Issue) (i : Issue) : Issue :=
  match o with
  | none => i
  | some v => f v i

/-- Manager operation `add_dependency`: not-found checks, dep_type check,
cycle check, then (only on success) the index mutation. The first component
is the index as the call leaves it. -/
def Manager.add_dependency (now : Nat) (idx : IssueIndex) (from_id to_id dep_type : String) :
    IssueIndex × Except String Dependency :=
  if (idx.get_issue from_id).isNone then (idx, Except.error ("Issue not found: " ++ from_id))
  else if (idx.get_issue to_id).isNone then (idx, Except.error ("Issue not found: " ++ to_id))
  else if !(dep_type ∈ validDepTypes : Bool) then (idx, Except.error "Invalid dep_type")
  else if detect_cycle idx from_id to_id then
    (idx, Except.error "Dependency would create a cycle")
  else
    let dep : Dependency := ⟨from_id, to_id, dep_type, now⟩
    (idx.add_dependency dep, Except.ok dep)

/-- Replace the stored issue object at `issue_id` (the Python code mutates
the object the dict already holds, so the dict layout is untouched). -/
def setIssue (idx : IssueIndex) (issue_id : String) (i : Issue) : IssueIndex :=
  { idx with issues := dinsert idx.issues issue_id i }

/-- Field assignments of `update_issue` that precede the status check:
title, then description. -/
def updTD (title description : Option String) (issue0 : Issue) : Issue :=
  optApp description (fun v i => { i with description := v })
    (optApp title (fun v i => { i with title := v }) issue0)

/-- Status assignment of `update_issue` (after the status check passes). -/
def updStatus (status : Option String) (i : Issue) : Issue :=
  optApp status (fun v j => { j with status := v }) i

/-- Field assignments of `update_issue` after the priority check: priority,
assignee, blocking_notes, metadata merge, and the `updated_at` stamp. -/
def updRest (priority : Option Int) (assignee blocking_notes : Option String)
    (metadata : Option (Dict String String)) (now : Nat) (i : Issue) : Issue :=
  let i4 := optApp priority (fun v j => { j with priority := v }) i
  let i5 := optApp assignee (fun v j => { j with assignee := some v }) i4
  let i6 := optApp blocking_notes (fun v j => { j with blocking_notes := some v }) i5
  let i7 := optApp metadata (fun m j => { j with metadata := dictUpdate j.metadata m }) i6
  { i7 with updated_at := now }

/-- Manager operation `update_issue`. The Python body mutates the issue
object in place field by field, so when a validation error is raised the
fields assigned before the failing check are already visible in the index:
the embedding returns the index in exactly that intermediate state. -/
def Manager.update_issue (now : Nat) (idx : IssueIndex) (issue_id : String)
    (title description status : Option String) (priority : Option Int)
    (assignee blocking_notes : Option String) (metadata : Option (Dict String String)) :
    IssueIndex × Except String Issue :=
  match idx.get_issue issue_id with
  | none => (idx, Except.error ("Issue not found: " ++ issue_id))
  | some issue0 =>
    let i2 := updTD title description issue0
    if badStatus status then
      (setIssue idx issue_id i2, Except.error "Invalid status")
    else
      let i3 := updStatus status i2
      if badPriority priority then
        (setIssue idx issue_id i3, Except.error "Priority must be 0-4")
      else
        let i8 := updRest priority assignee blocking_notes metadata now i3
        (setIssue idx issue_id i8, Except.ok i8)

/-- Manager operation `close_issue`: unconditionally forces status closed
and stamps `closed_at` and `updated_at`; `reason` only feeds the audit
event, which carries no index state. -/
def Manager.close_issue (now : Nat) (idx : IssueIndex) (issue_id reason : String) :
    IssueIndex × Except String Issue :=
  match idx.get_issue issue_id with
  | none => (idx, Except.error ("Issue not found: " ++ issue_id))
  | some issue =>
    let i' := { issue with status := "closed", closed_at := some now, updated_at := now }
    (setIssue idx issue_id i', Except.ok i')

/-- The index mutations reachable through `IssueIndex`'s public interface. -/
inductive IdxOp where
  | addIssue (issue : Issue)
  | removeIssue (issue_id : String)
  | addDep (dep : Dependency)
  | removeDep (from_id to_id : String)
  | clearAll
deriving Repr

/-- Apply one index operation. -/
def applyOp (idx : IssueIndex) : IdxOp → IssueIndex
  | .addIssue i => idx.add_issue i
  | .removeIssue s => idx.remove_issue s
  | .addDep d => idx.add_dependency d
  | .removeDep f t => idx.remove_dependency f t
  | .clearAll => idx.clear

/-- Coherence of the edge map with the two adjacency maps, plus sparseness:
no adjacency entry holds an empty set. -/
def Coherent (idx : IssueIndex) : Prop :=
  (∀ f t, (f, t) ∈ dkeys idx.dependencies ↔ t ∈ (dget idx.blockers f).getD []) ∧
  (∀ f t, (f, t) ∈ dkeys idx.dependencies ↔ f ∈ (dget idx.dependents t).getD []) ∧
  (∀ k s, dget idx.blockers k = some s → s ≠ []) ∧
  (∀ k s, dget idx.dependents k = some s → s ≠ [])

/-- Issue template for concrete test states. -/
def mkSampleIssue (id status : String) (priority : Int) : Issue :=
  { id := id, title := id, description := "", status := status, priority := priority,
    issue_type := "task", assignee := none, created_at := 0, updated_at := 0 }

/-- Concrete index realising the spec's cycle scenario: three open issues
and dependencies 1 → 2 and 2 → 3. -/
def sampleIdx : IssueIndex :=
  (((((emptyIndex.add_issue (mkSampleIssue "1" "open" 2)).add_issue
    (mkSampleIssue "2" "open" 1)).add_issue
    (mkSampleIssue "3" "open" 0)).add_dependency
    ⟨"1", "2", "blocks", 0⟩).add_dependency ⟨"2", "3", "blocks", 0⟩)

/-! Dictionary lemmas. -/

theorem dget_dinsert_self {α β : Type} [DecidableEq α] (d : Dict α β) (k : α) (v : β) :
    dget (dinsert d k v) k = some v := by
  induction d with
  | nil => simp [dinsert, dget]
  | cons kv d ih =>
    by_cases h : kv.1 = k
    · simp [dinsert, h, dget]
    · simp [dinsert, h, dget, ih]

theorem dget_dinsert_ne {α β : Type} [DecidableEq α] (d : Dict α β) (k k' : α) (v : β)
    (h : k' ≠ k) : dget (dinsert d k v) k' = dget d k' := by
  induction d with
  | nil => simp [dinsert, dget, Ne.symm h]
  | cons kv d ih =>
    by_cases hk : kv.1 = k
    · simp [dinsert, hk, dget, Ne.symm h]
    · simp only [dinsert, if_neg hk, dget, ih]

theorem dget_dremove_self {α β : Type} [DecidableEq α] (d : Dict α β) (k : α) :
    dget (dremove d k) k = none := by
  induction d with
  | nil => simp [dremove, dget]
  | cons kv d ih =>
    by_cases h : kv.1 = k
    · simp [dremove, h, ih]
    · simp [dremove, h, dget, ih]

theorem dget_dremove_ne {α β : Type} [DecidableEq α] (d : Dict α β) (k k' : α)
    (h : k' ≠ k) : dget (dremove d k) k' = dget d k' := by
  induction d with
  | nil => simp [dremove]
  | cons kv d ih =>
    by_cases hk : kv.1 = k
    · simp [dremove, hk, dget, ih, Ne.symm h]
    · simp only [dremove, if_neg hk, dget, ih]

theorem mem_dkeys_iff_isSome {α β : Type} [DecidableEq α] (d : Dict α β) (k : α) :
    k ∈ dkeys d ↔ (dget d k).isSome = true := by
  induction d with
  | nil => simp [dget, dkeys]
  | cons kv d ih =>
    rw [show dkeys (kv :: d) = kv.1 :: dkeys d from rfl, List.mem_cons,
      show dget (kv :: d) k = if kv.1 = k then some kv.2 else dget d k from rfl]
    by_cases h : kv.1 = k
    · simp [h]
    · have h' : ¬ k = kv.1 := fun e => h e.symm
      simp [h, h', ih]

/-! Set lemmas. -/

theorem mem_sinsert (s : List String) (x y : String) :
    y ∈ sinsert s x ↔ y ∈ s ∨ y = x := by
  unfold sinsert
  by_cases h : x ∈ s
  · simp only [if_pos h]
    exact ⟨Or.inl, fun hy => hy.elim id fun e => e ▸ h⟩
  · simp [if_neg h]

theorem sinsert_ne_nil (s : List String) (x : String) : sinsert s x ≠ [] := by
  unfold sinsert
  by_cases h : x ∈ s
  · simp only [if_pos h]
    exact List.ne_nil_of_mem h
  · simp [if_neg h]

theorem mem_sdiscard (s : List String) (x y : String) :
    y ∈ sdiscard s x ↔ y ∈ s ∧ y ≠ x := by
  simp [sdiscard, List.mem_filter]

/-! Sorting lemmas. -/

theorem mem_insertByPriority (x z : Issue) (l : List Issue) :
    z ∈ insertByPriority x l ↔ z = x ∨ z ∈ l := by
  induction l with
  | nil => simp [insertByPriority]
  | cons y ys ih =>
    by_cases h : y.priority ≤ x.priority
    · simp only [insertByPriority, if_pos h, List.mem_cons, ih]
      tauto
    · simp only [insertByPriority, if_neg h, List.mem_cons]

theorem mem_sortByPriority (l : List Issue) (z : Issue) :
    z ∈ sortByPriority l ↔ z ∈ l := by
  induction l with
  | nil => simp [sortByPriority]
  | cons y ys ih =>
    simp [sortByPriority, mem_insertByPriority, ih]

theorem sorted_insertByPriority (x : Issue) (l : List Issue)
    (hl : l.Pairwise (fun a b => a.priority ≤ b.priority)) :
    (insertByPriority x l).Pairwise (fun a b => a.priority ≤ b.priority) := by
  induction l with
  | nil => simp [insertByPriority]
  | cons y ys ih =>
    rcases List.pairwise_cons.1 hl with ⟨hy, hys⟩
    by_cases h : y.priority ≤ x.priority
    · rw [insertByPriority, if_pos h]
      refine List.pairwise_cons.2 ⟨?_, ih hys⟩
      intro z hz
      rcases (mem_insertByPriority x z ys).1 hz with rfl | hz'
      · exact h
      · exact hy z hz'
    · rw [insertByPriority, if_neg h]
      refine List.pairwise_cons.2 ⟨?_, hl⟩
      intro z hz
      have hxy : x.priority ≤ y.priority := le_of_not_le h
      rcases List.mem_cons.1 hz with rfl | hz'
      · exact hxy
      · exact le_trans hxy (hy z hz')

theorem sorted_sortByPriority (l : List Issue) :
    (sortByPriority l).Pairwise (fun a b => a.priority ≤ b.priority) := by
  induction l with
  | nil => simp [sortByPriority]
  | cons y ys ih => exact sorted_insertByPriority y (sortByPriority ys) ih

/-! Graph lemmas: correctness of the cycle decision procedure. -/

theorem mem_succs (E : List (String × String)) (u w : String) :
    w ∈ succs E u ↔ (u, w) ∈ E := by
  simp only [succs, List.mem_map, List.mem_filter, decide_eq_true_eq]
  constructor
  · rintro ⟨⟨a, b⟩, ⟨hab, ha⟩, hb⟩
    simp only at ha hb
    subst ha; subst hb
    exact hab
  · intro h
    exact ⟨(u, w), ⟨h, rfl⟩, rfl⟩

theorem walk_append (E : List (String × String)) (u v : String) (p q : List String) :
    Walk E u (p ++ q) v ↔ ∃ m, Walk E u p m ∧ Walk E m q v := by
  induction p generalizing u with
  | nil =>
    constructor
    · intro h
      exact ⟨u, rfl, h⟩
    · rintro ⟨m, hm, h⟩
      have hum : u = m := hm
      subst hum
      exact h
  | cons w p ih =>
    rw [List.cons_append]
    show ((u, w) ∈ E ∧ Walk E w (p ++ q) v) ↔ _
    rw [ih w]
    constructor
    · rintro ⟨he, m, h1, h2⟩
      exact ⟨m, ⟨he, h1⟩, h2⟩
    · rintro ⟨m, ⟨he, h1⟩, h2⟩
      exact ⟨he, m, h1, h2⟩

theorem walk_targets (E : List (String × String)) (u v : String) (p : List String)
    (h : Walk E u p v) : ∀ w ∈ p, w ∈ E.map Prod.snd := by
  induction p generalizing u with
  | nil => simp
  | cons w p ih =>
    rcases h with ⟨he, hw⟩
    intro z hz
    rcases List.mem_cons.1 hz with rfl | hz'
    · exact List.mem_map.2 ⟨(u, z), he, rfl⟩
    · exact ih w hw z hz'

theorem exists_dup_split {α : Type} (l : List α) (h : ¬ l.Nodup) :
    ∃ x a b c, l = a ++ (x :: (b ++ (x :: c))) := by
  induction l with
  | nil => exact absurd List.nodup_nil h
  | cons y l ih =>
    by_cases hy : y ∈ l
    · rcases List.append_of_mem hy with ⟨b, c, rfl⟩
      exact ⟨y, [], b, c, rfl⟩
    · have hl : ¬ l.Nodup := fun hn => h (List.nodup_cons.2 ⟨hy, hn⟩)
      rcases ih hl with ⟨x, a, b, c, rfl⟩
      exact ⟨x, y :: a, b, c, rfl⟩

theorem walk_cut (E : List (String × String)) (u v x : String) (a b c : List String)
    (h : Walk E u (a ++ (x :: (b ++ (x :: c)))) v) : Walk E u (a ++ (x :: c)) v := by
  rcases (walk_append E u v a (x :: (b ++ (x :: c)))).1 h with ⟨m, h1, h2⟩
  rcases h2 with ⟨hmx, h3⟩
  rcases (walk_append E x v b (x :: c)).1 h3 with ⟨m2, _, h5⟩
  rcases h5 with ⟨_, h6⟩
  exact (walk_append E u v a (x :: c)).2 ⟨m, h1, hmx, h6⟩

theorem walk_shorten (E : List (String × String)) (u v : String) (p : List String)
    (h : Walk E u p v) :
    ∃ q, q.length ≤ E.length ∧ (p ≠ [] → q ≠ []) ∧ Walk E u q v := by
  by_cases hle : p.length ≤ E.length
  · exact ⟨p, hle, fun h' => h', h⟩
  · have hsub : ∀ w ∈ p, w ∈ E.map Prod.snd := walk_targets E u v p h
    have hnd : ¬ p.Nodup := by
      intro hnd
      apply hle
      have h1 : p.toFinset.card = p.length := List.toFinset_card_of_nodup hnd
      have h2 : p.toFinset ⊆ (E.map Prod.snd).toFinset := by
        intro z hz
        exact List.mem_toFinset.2 (hsub z (List.mem_toFinset.1 hz))
      have h3 : p.toFinset.card ≤ (E.map Prod.snd).toFinset.card := Finset.card_le_card h2
      have h4 : (E.map Prod.snd).toFinset.card ≤ (E.map Prod.snd).length :=
        (E.map Prod.snd).toFinset_card_le
      have h5 : (E.map Prod.snd).length = E.length := List.length_map E Prod.snd
      omega
    rcases exists_dup_split p hnd with ⟨x, a, b, c, hp⟩
    have h' : Walk E u (a ++ (x :: c)) v := walk_cut E u v x a b c (hp ▸ h)
    rcases walk_shorten E u v (a ++ (x :: c)) h' with ⟨q, hq1, hq2, hq3⟩
    exact ⟨q, hq1, fun _ => hq2 (by simp), hq3⟩
termination_by p.length
decreasing_by
  rw [hp]
  simp only [List.length_append, List.length_cons]
  omega

theorem reachB_iff (E : List (String × String)) (n : Nat) (u v : String) :
    reachB E n u v = true ↔ ∃ p, p.length ≤ n ∧ Walk E u p v := by
  induction n generalizing u with
  | zero =>
    simp only [reachB, decide_eq_true_eq]
    constructor
    · intro h
      exact ⟨[], by simp, h⟩
    · rintro ⟨p, hp, hw⟩
      have : p = [] := List.length_eq_zero.1 (Nat.le_zero.1 hp)
      subst this
      exact hw
  | succ n ih =>
    simp only [reachB, Bool.or_eq_true, List.any_eq_true, decide_eq_true_eq]
    constructor
    · rintro (h | ⟨w, hw, hr⟩)
      · exact ⟨[], by simp, h⟩
      · rcases (ih w).1 hr with ⟨p, hp, hwalk⟩
        refine ⟨w :: p, by simpa using Nat.succ_le_succ hp, (mem_succs E u w).1 hw, hwalk⟩
    · rintro ⟨p, hp, hwalk⟩
      cases p with
      | nil => exact Or.inl hwalk
      | cons w p' =>
        rcases hwalk with ⟨he, hw'⟩
        refine Or.inr ⟨w, (mem_succs E u w).2 he, (ih w).2 ⟨p', ?_, hw'⟩⟩
        simp only [List.length_cons] at hp
        omega

theorem hasCycleB_iff (E : List (String × String)) :
    hasCycleB E = true ↔ HasCycle E := by
  simp only [hasCycleB, List.any_eq_true]
  constructor
  · rintro ⟨⟨a, b⟩, hab, hr⟩
    rcases (reachB_iff E E.length b a).1 hr with ⟨p, _, hw⟩
    exact ⟨a, b :: p, by simp, hab, hw⟩
  · rintro ⟨u, p, hne, hw⟩
    cases p with
    | nil => exact absurd rfl hne
    | cons w p' =>
      rcases hw with ⟨he, hw'⟩
      rcases walk_shorten E w u p' hw' with ⟨q, hq1, _, hq3⟩
      exact ⟨(u, w), he, (reachB_iff E E.length w u).2 ⟨q, hq1, hq3⟩⟩

/-! Characterisation of the scheduler predicates. -/

theorem isCandidate_iff (i : Issue) :
    isCandidate i = true ↔ (i.status = "open" ∨ i.status = "in_progress") := by
  simp [isCandidate]

theorem isOpenBlocker_eq_false_iff (idx : IssueIndex) (b : String) :
    isOpenBlocker idx b = false ↔
      ∀ bl, idx.get_issue b = some bl → bl.status = "closed" := by
  unfold isOpenBlocker
  cases h : idx.get_issue b with
  | none => simp
  | some bl => simp

theorem hasOpenBlocker_eq_false_iff (idx : IssueIndex) (i : Issue) :
    hasOpenBlocker idx i = false ↔
      ∀ b ∈ idx.get_blockers i.id, ∀ bl, idx.get_issue b = some bl → bl.status = "closed" := by
  unfold hasOpenBlocker
  rw [List.any_eq_false]
  constructor
  · intro h b hb
    exact (isOpenBlocker_eq_false_iff idx b).1 (by simpa using h b hb)
  · intro h b hb
    simpa using (isOpenBlocker_eq_false_iff idx b).2 (h b hb)

theorem mem_ready_iff (idx : IssueIndex) (i : Issue) :
    i ∈ get_ready_issues idx none ↔
      i ∈ dvalues idx.issues ∧ isCandidate i = true ∧ hasOpenBlocker idx i = false := by
  show i ∈ sortByPriority ((dvalues idx.issues).filter
      (fun j => isCandidate j && !hasOpenBlocker idx j)) ↔ _
  rw [mem_sortByPriority, List.mem_filter]
  simp [Bool.and_eq_true, Bool.not_eq_true', and_assoc]

theorem mem_blocked_hasOpenBlocker (idx : IssueIndex) (i : Issue) (bs : List Issue)
    (h : (i, bs) ∈ get_blocked_issues idx) : hasOpenBlocker idx i = true := by
  unfold get_blocked_issues at h
  rw [List.mem_filterMap] at h
  rcases h with ⟨j, _, hj⟩
  by_cases hc : j.status = "closed"
  · simp [hc] at hj
  · simp only [if_neg hc] at hj
    by_cases he : (openBlockersOf idx j.id).isEmpty
    · simp [he] at hj
    · rw [if_neg he] at hj
      have h2 := Option.some_inj.1 hj
      have hji : j = i := congrArg Prod.fst h2
      subst hji
      have hne : openBlockersOf idx j.id ≠ [] := by
        intro hnil
        simp [hnil] at he
      rcases List.exists_mem_of_ne_nil _ hne with ⟨bl, hbl⟩
      unfold openBlockersOf at hbl
      rw [List.mem_filterMap] at hbl
      rcases hbl with ⟨b, hb, hbspec⟩
      unfold hasOpenBlocker
      rw [List.any_eq_true]
      refine ⟨b, hb, ?_⟩
      unfold isOpenBlocker
      cases hg : idx.get_issue b with
      | none => rw [hg] at hbspec; simp at hbspec
      | some bl' =>
        rw [hg] at hbspec
        by_cases hcl : bl'.status = "closed"
        · simp [hcl] at hbspec
        · simp [hcl]

/-! Lemmas about the metadata merge. -/

theorem dictUpdate_cons {α β : Type} [DecidableEq α] (d : Dict α β) (kv : α × β)
    (m : Dict α β) : dictUpdate d (kv :: m) = dictUpdate (dinsert d kv.1 kv.2) m := rfl

theorem dget_dictUpdate_none {α β : Type} [DecidableEq α] (m : Dict α β) (k : α)
    (hm : dget m k = none) : ∀ d, dget (dictUpdate d m) k = dget d k := by
  induction m with
  | nil => intro d; rfl
  | cons kv m ih =>
    intro d
    have hk : ¬ kv.1 = k := by
      intro e
      rw [show dget (kv :: m) k = if kv.1 = k then some kv.2 else dget m k from rfl,
        if_pos e] at hm
      exact Option.noConfusion hm
    have hm' : dget m k = none := by
      rw [show dget (kv :: m) k = if kv.1 = k then some kv.2 else dget m k from rfl,
        if_neg hk] at hm
      exact hm
    rw [dictUpdate_cons, ih hm']
    exact dget_dinsert_ne d kv.1 k kv.2 (fun e => hk e.symm)

theorem dget_dictUpdate_some {α β : Type} [DecidableEq α] (m : Dict α β) :
    (dkeys m).Nodup → ∀ k v, dget m k = some v → ∀ d, dget (dictUpdate d m) k = some v := by
  induction m with
  | nil =>
    intro _ k v hk
    exact absurd hk (by simp [dget])
  | cons kv m ih =>
    intro hm k v hk d
    have hm' : kv.1 ∉ dkeys m ∧ (dkeys m).Nodup :=
      List.nodup_cons.1 ((show dkeys (kv :: m) = kv.1 :: dkeys m from rfl) ▸ hm)
    rw [dictUpdate_cons]
    by_cases h : kv.1 = k
    · have hv : v = kv.2 := by
        rw [show dget (kv :: m) k = if kv.1 = k then some kv.2 else dget m k from rfl,
          if_pos h] at hk
        exact (Option.some_inj.1 hk).symm
      have hnone : dget m k = none := by
        rcases hg : dget m k with _ | w
        · rfl
        · exact absurd ((mem_dkeys_iff_isSome m k).2 (by simp [hg])) (h ▸ hm'.1)
      rw [dget_dictUpdate_none m k hnone]
      rw [hv, ← h]
      exact dget_dinsert_self d kv.1 kv.2
    · have hk' : dget m k = some v := by
        rw [show dget (kv :: m) k = if kv.1 = k then some kv.2 else dget m k from rfl,
          if_neg h] at hk
        exact hk
      exact ih hm'.2 k v hk' (dinsert d kv.1 kv.2)

/-! Coherence of the adjacency maps with the edge map. -/

theorem dget_pruneAdj_getD (m : Dict String (List String)) (k x q : String) :
    (dget (pruneAdj m k x) q).getD [] =
      if q = k then sdiscard ((dget m k).getD []) x else (dget m q).getD [] := by
  unfold pruneAdj
  cases hm : dget m k with
  | none =>
    by_cases hq : q = k
    · subst hq
      simp [hm, sdiscard]
    · simp [hq]
  | some s =>
    simp only [Option.getD_some]
    by_cases hnil : sdiscard s x = []
    · rw [if_pos hnil]
      by_cases hq : q = k
      · subst hq
        rw [if_pos rfl, dget_dremove_self, hnil]
        rfl
      · rw [if_neg hq, dget_dremove_ne m k q hq]
    · rw [if_neg hnil]
      by_cases hq : q = k
      · subst hq
        rw [if_pos rfl, dget_dinsert_self]
        rfl
      · rw [if_neg hq, dget_dinsert_ne m k q (sdiscard s x) hq]

theorem pruneAdj_nonempty (m : Dict String (List String)) (k x : String)
    (h : ∀ q s, dget m q = some s → s ≠ []) :
    ∀ q s, dget (pruneAdj m k x) q = some s → s ≠ [] := by
  intro q s hq
  unfold pruneAdj at hq
  cases hm : dget m k with
  | none =>
    rw [hm] at hq
    exact h q s hq
  | some s0 =>
    rw [hm] at hq
    simp only at hq
    by_cases hnil : sdiscard s0 x = []
    · rw [if_pos hnil] at hq
      by_cases hqk : q = k
      · subst hqk
        rw [dget_dremove_self] at hq
        exact Option.noConfusion hq
      · rw [dget_dremove_ne m k q hqk] at hq
        exact h q s hq
    · rw [if_neg hnil] at hq
      by_cases hqk : q = k
      · subst hqk
        rw [dget_dinsert_self] at hq
        rw [← Option.some_inj.1 hq]
        exact hnil
      · rw [dget_dinsert_ne m k q (sdiscard s0 x) hqk] at hq
        exact h q s hq

theorem coherent_empty : Coherent emptyIndex := by
  refine ⟨?_, ?_, ?_, ?_⟩ <;> intro a b <;> simp [emptyIndex, dkeys, dget]

theorem coherent_addDep (idx : IssueIndex) (d : Dependency) (h : Coherent idx) :
    Coherent (idx.add_dependency d) := by
  obtain ⟨h1, h2, h3, h4⟩ := h
  refine ⟨?_, ?_, ?_, ?_⟩
  · intro f t
    show (f, t) ∈ dkeys (dinsert idx.dependencies (d.from_id, d.to_id) d) ↔
      t ∈ (dget (dinsert idx.blockers d.from_id
        (sinsert ((dget idx.blockers d.from_id).getD []) d.to_id)) f).getD []
    rw [mem_dkeys_iff_isSome]
    by_cases hf : f = d.from_id
    · subst hf
      rw [dget_dinsert_self idx.blockers d.from_id
        (sinsert ((dget idx.blockers d.from_id).getD []) d.to_id)]
      rw [Option.getD_some, mem_sinsert]
      by_cases ht : t = d.to_id
      · subst ht
        rw [dget_dinsert_self idx.dependencies (d.from_id, d.to_id) d]
        simp
      · rw [dget_dinsert_ne idx.dependencies (d.from_id, d.to_id) (d.from_id, t) d
          (by simp [ht])]
        rw [← mem_dkeys_iff_isSome, h1 d.from_id t]
        simp [ht]
    · rw [dget_dinsert_ne idx.blockers d.from_id f
        (sinsert ((dget idx.blockers d.from_id).getD []) d.to_id) hf]
      rw [dget_dinsert_ne idx.dependencies (d.from_id, d.to_id) (f, t) d (by simp [hf])]
      rw [← mem_dkeys_iff_isSome]
      exact h1 f t
  · intro f t
    show (f, t) ∈ dkeys (dinsert idx.dependencies (d.from_id, d.to_id) d) ↔
      f ∈ (dget (dinsert idx.dependents d.to_id
        (sinsert ((dget idx.dependents d.to_id).getD []) d.from_id)) t).getD []
    rw [mem_dkeys_iff_isSome]
    by_cases ht : t = d.to_id
    · subst ht
      rw [dget_dinsert_self idx.dependents d.to_id
        (sinsert ((dget idx.dependents d.to_id).getD []) d.from_id)]
      rw [Option.getD_some, mem_sinsert]
      by_cases hf : f = d.from_id
      · subst hf
        rw [dget_dinsert_self idx.dependencies (d.from_id, d.to_id) d]
        simp
      · rw [dget_dinsert_ne idx.dependencies (d.from_id, d.to_id) (f, d.to_id) d
          (by simp [hf])]
        rw [← mem_dkeys_iff_isSome, h2 f d.to_id]
        simp [hf]
    · rw [dget_dinsert_ne idx.dependents d.to_id t
        (sinsert ((dget idx.dependents d.to_id).getD []) d.from_id) ht]
      rw [dget_dinsert_ne idx.dependencies (d.from_id, d.to_id) (f, t) d (by simp [ht])]
      rw [← mem_dkeys_iff_isSome]
      exact h2 f t
  · intro k s hs
    have hs' : dget (dinsert idx.blockers d.from_id
        (sinsert ((dget idx.blockers d.from_id).getD []) d.to_id)) k = some s := hs
    by_cases hk : k = d.from_id
    · rw [hk, dget_dinsert_self idx.blockers d.from_id
        (sinsert ((dget idx.blockers d.from_id).getD []) d.to_id)] at hs'
      rw [← Option.some_inj.1 hs']
      exact sinsert_ne_nil _ _
    · rw [dget_dinsert_ne idx.blockers d.from_id k
        (sinsert ((dget idx.blockers d.from_id).getD []) d.to_id) hk] at hs'
      exact h3 k s hs'
  · intro k s hs
    have hs' : dget (dinsert idx.dependents d.to_id
        (sinsert ((dget idx.dependents d.to_id).getD []) d.from_id)) k = some s := hs
    by_cases hk : k = d.to_id
    · rw [hk, dget_dinsert_self idx.dependents d.to_id
        (sinsert ((dget idx.dependents d.to_id).getD []) d.from_id)] at hs'
      rw [← Option.some_inj.1 hs']
      exact sinsert_ne_nil _ _
    · rw [dget_dinsert_ne idx.dependents d.to_id k
        (sinsert ((dget idx.dependents d.to_id).getD []) d.from_id) hk] at hs'
      exact h4 k s hs'

theorem coherent_removeDep (idx : IssueIndex) (f0 t0 : String) (h : Coherent idx) :
    Coherent (idx.remove_dependency f0 t0) := by
  obtain ⟨h1, h2, h3, h4⟩ := h
  refine ⟨?_, ?_, ?_, ?_⟩
  · intro f t
    show (f, t) ∈ dkeys (dremove idx.dependencies (f0, t0)) ↔
      t ∈ (dget (pruneAdj idx.blockers f0 t0) f).getD []
    rw [mem_dkeys_iff_isSome, dget_pruneAdj_getD]
    by_cases hkey : (f, t) = (f0, t0)
    · rw [hkey, dget_dremove_self]
      have hf : f = f0 := congrArg Prod.fst hkey
      have ht : t = t0 := congrArg Prod.snd hkey
      rw [if_pos hf, ht, mem_sdiscard]
      simp
    · rw [dget_dremove_ne idx.dependencies (f0, t0) (f, t) hkey, ← mem_dkeys_iff_isSome,
        h1 f t]
      by_cases hf : f = f0
      · subst hf
        have ht : ¬ t = t0 := fun e => hkey (by rw [e])
        rw [if_pos rfl, mem_sdiscard]
        simp [ht]
      · rw [if_neg hf]
  · intro f t
    show (f, t) ∈ dkeys (dremove idx.dependencies (f0, t0)) ↔
      f ∈ (dget (pruneAdj idx.dependents t0 f0) t).getD []
    rw [mem_dkeys_iff_isSome, dget_pruneAdj_getD]
    by_cases hkey : (f, t) = (f0, t0)
    · rw [hkey, dget_dremove_self]
      have hf : f = f0 := congrArg Prod.fst hkey
      have ht : t = t0 := congrArg Prod.snd hkey
      rw [if_pos ht, hf, mem_sdiscard]
      simp
    · rw [dget_dremove_ne idx.dependencies (f0, t0) (f, t) hkey, ← mem_dkeys_iff_isSome,
        h2 f t]
      by_cases ht : t = t0
      · subst ht
        have hf : ¬ f = f0 := fun e => hkey (by rw [e])
        rw [if_pos rfl, mem_sdiscard]
        simp [hf]
      · rw [if_neg ht]
  · exact pruneAdj_nonempty idx.blockers f0 t0 h3
  · exact pruneAdj_nonempty idx.dependents t0 f0 h4

theorem coherent_applyOp (idx : IssueIndex) (op : IdxOp) (h : Coherent idx) :
    Coherent (applyOp idx op) := by
  cases op with
  | addIssue i => exact h
  | removeIssue s => exact h
  | addDep d => exact coherent_addDep idx d h
  | removeDep f t => exact coherent_removeDep idx f t h
  | clearAll => exact coherent_empty

theorem coherent_foldl (l : List IdxOp) :
    ∀ idx : IssueIndex, Coherent idx → Coherent (l.foldl applyOp idx) := by
  induction l with
  | nil => intro idx h; exact h
  | cons op l ih => intro idx h; exact ih _ (coherent_applyOp idx op h)

/-! Unfolding lemmas for the manager operations. -/

theorem get_issue_setIssue_self (idx : IssueIndex) (issue_id : String) (i : Issue) :
    (setIssue idx issue_id i).get_issue issue_id = some i :=
  dget_dinsert_self idx.issues issue_id i

theorem get_issue_setIssue_ne (idx : IssueIndex) (issue_id id' : String) (i : Issue)
    (h : id' ≠ issue_id) : (setIssue idx issue_id i).get_issue id' = idx.get_issue id' :=
  dget_dinsert_ne idx.issues issue_id id' i h

theorem update_issue_ok (now : Nat) (idx : IssueIndex) (issue_id : String)
    (ti de st : Option String) (pr : Option Int) (asg bn : Option String)
    (md : Option (Dict String String)) (issue0 : Issue)
    (h0 : idx.get_issue issue_id = some issue0)
    (hst : badStatus st = false) (hpr : badPriority pr = false) :
    Manager.update_issue now idx issue_id ti de st pr asg bn md =
      (setIssue idx issue_id (updRest pr asg bn md now (updStatus st (updTD ti de issue0))),
        Except.ok (updRest pr asg bn md now (updStatus st (updTD ti de issue0)))) := by
  unfold Manager.update_issue
  rw [h0]
  simp [hst, hpr]

theorem update_issue_badStatus_eq (now : Nat) (idx : IssueIndex) (issue_id : String)
    (ti de st : Option String) (pr : Option Int) (asg bn : Option String)
    (md : Option (Dict String String)) (issue0 : Issue)
    (h0 : idx.get_issue issue_id = some issue0) (hst : badStatus st = true) :
    Manager.update_issue now idx issue_id ti de st pr asg bn md =
      (setIssue idx issue_id (updTD ti de issue0), Except.error "Invalid status") := by
  unfold Manager.update_issue
  rw [h0]
  simp [hst]

theorem update_issue_badPriority_eq (now : Nat) (idx : IssueIndex) (issue_id : String)
    (ti de st : Option String) (pr : Option Int) (asg bn : Option String)
    (md : Option (Dict String String)) (issue0 : Issue)
    (h0 : idx.get_issue issue_id = some issue0)
    (hst : badStatus st = false) (hpr : badPriority pr = true) :
    Manager.update_issue now idx issue_id ti de st pr asg bn md =
      (setIssue idx issue_id (updStatus st (updTD ti de issue0)),
        Except.error "Priority must be 0-4") := by
  unfold Manager.update_issue
  rw [h0]
  simp [hst, hpr]

theorem close_issue_eq (now : Nat) (idx : IssueIndex) (issue_id reason : String)
    (issue0 : Issue) (h0 : idx.get_issue issue_id = some issue0) :
    Manager.close_issue now idx issue_id reason =
      (setIssue idx issue_id
          { issue0 with status := "closed", closed_at := some now, updated_at := now },
        Except.ok { issue0 with status := "closed", closed_at := some now, updated_at := now }) := by
  unfold Manager.close_issue
  rw [h0]

theorem add_dependency_detect_true (now : Nat) (idx : IssueIndex) (f t dt : String)
    (hf : (idx.get_issue f).isSome = true) (ht : (idx.get_issue t).isSome = true)
    (hdt : dt ∈ validDepTypes) (hdc : detect_cycle idx f t = true) :
    Manager.add_dependency now idx f t dt =
      (idx, Except.error "Dependency would create a cycle") := by
  have hf' : (idx.get_issue f).isNone = false := by
    cases hg : idx.get_issue f
    · rw [hg] at hf
      exact absurd hf (by simp)
    · rfl
  have ht' : (idx.get_issue t).isNone = false := by
    cases hg : idx.get_issue t
    · rw [hg] at ht
      exact absurd ht (by simp)
    · rfl
  simp [Manager.add_dependency, hf', ht', hdt, hdc]

/-! Frame lemmas for the staged field updates of `update_issue`. -/

theorem updTD_frame (ti de : Option String) (i : Issue) :
    (updTD ti de i).status = i.status ∧ (updTD ti de i).priority = i.priority ∧
    (updTD ti de i).assignee = i.assignee ∧
    (updTD ti de i).blocking_notes = i.blocking_notes ∧
    (updTD ti de i).metadata = i.metadata ∧ (updTD ti de i).updated_at = i.updated_at ∧
    (updTD ti de i).closed_at = i.closed_at ∧ (updTD ti de i).id = i.id := by
  cases ti <;> cases de <;> exact ⟨rfl, rfl, rfl, rfl, rfl, rfl, rfl, rfl⟩

theorem updStatus_frame (st : Option String) (i : Issue) :
    (updStatus st i).priority = i.priority ∧ (updStatus st i).assignee = i.assignee ∧
    (updStatus st i).blocking_notes = i.blocking_notes ∧
    (updStatus st i).metadata = i.metadata ∧ (updStatus st i).updated_at = i.updated_at ∧
    (updStatus st i).closed_at = i.closed_at ∧ (updStatus st i).id = i.id := by
  cases st <;> exact ⟨rfl, rfl, rfl, rfl, rfl, rfl, rfl⟩

theorem updRest_metadata_some (pr : Option Int) (asg bn : Option String)
    (m : Dict String String) (now : Nat) (i : Issue) :
    (updRest pr asg bn (some m) now i).metadata = dictUpdate i.metadata m := by
  cases pr <;> cases asg <;> cases bn <;> rfl

/-! Bridges between the cycle decision procedure and the declarative cycle
statement, used to discharge hypotheses at concrete inputs. -/

theorem hasCycle_of_eq_true {E : List (String × String)} (h : hasCycleB E = true) :
    HasCycle E :=
  (hasCycleB_iff E).1 h

theorem not_hasCycle_of_eq_false {E : List (String × String)} (h : hasCycleB E = false) :
    ¬ HasCycle E := fun hc => by
  rw [(hasCycleB_iff E).2 hc] at h
  exact Bool.noConfusion h

/-- C1: an issue is returned by `get_ready_issues` (no limit) iff it is in
the index, its status is open or in_progress, and every blocker id in
`get_blockers(issue.id)` either does not resolve to an issue or resolves to
a closed one; with no blockers the final condition holds vacuously. -/
theorem get_ready_issues_membership (idx : IssueIndex) (i : Issue) :
    i ∈ get_ready_issues idx none ↔
      i ∈ dvalues idx.issues ∧ (i.status = "open" ∨ i.status = "in_progress") ∧
        ∀ b ∈ idx.get_blockers i.id, ∀ bl, idx.get_issue b = some bl → bl.status = "closed" := by
  rw [mem_ready_iff, isCandidate_iff, hasOpenBlocker_eq_false_iff]

/-- C1 witness: the membership characterisation at the sample index and its
ready issue 3. -/
theorem get_ready_issues_membership_witness :
    mkSampleIssue "3" "open" 0 ∈ get_ready_issues sampleIdx none ↔
      mkSampleIssue "3" "open" 0 ∈ dvalues sampleIdx.issues ∧
        ((mkSampleIssue "3" "open" 0).status = "open" ∨
          (mkSampleIssue "3" "open" 0).status = "in_progress") ∧
        ∀ b ∈ sampleIdx.get_blockers (mkSampleIssue "3" "open" 0).id,
          ∀ bl, sampleIdx.get_issue b = some bl → bl.status = "closed" :=
  get_ready_issues_membership sampleIdx (mkSampleIssue "3" "open" 0)

/-- C2: when both endpoints exist, the dep_type is valid, the existing
graph is acyclic and the hypothetical edge would close a directed cycle,
`add_dependency` returns exactly the cycle error with the index untouched
(so the dependency set and its count are unchanged: the cycle check runs
before any mutation). -/
theorem add_dependency_cycle_atomic (now : Nat) (idx : IssueIndex) (f t dt : String)
    (hf : (idx.get_issue f).isSome = true) (ht : (idx.get_issue t).isSome = true)
    (hdt : dt ∈ validDepTypes) (hacyc : ¬ HasCycle (depEdges idx))
    (hcyc : HasCycle (depEdges idx ++ [(f, t)])) :
    Manager.add_dependency now idx f t dt =
      (idx, Except.error "Dependency would create a cycle") ∧
    (Manager.add_dependency now idx f t dt).1.dependencies = idx.dependencies := by
  have heq := add_dependency_detect_true now idx f t dt hf ht hdt ((hasCycleB_iff _).2 hcyc)
  exact ⟨heq, by rw [heq]⟩

/-- C2 witness: after 1 → 2 and 2 → 3, the attempt 3 → 1 fails with the
cycle error and leaves the dependency set unchanged. -/
theorem add_dependency_cycle_atomic_witness :
    Manager.add_dependency 7 sampleIdx "3" "1" "blocks" =
      (sampleIdx, Except.error "Dependency would create a cycle") ∧
    (Manager.add_dependency 7 sampleIdx "3" "1" "blocks").1.dependencies =
      sampleIdx.dependencies :=
  add_dependency_cycle_atomic 7 sampleIdx "3" "1" "blocks" (by decide) (by decide) (by decide)
    (not_hasCycle_of_eq_false (by decide)) (hasCycle_of_eq_true (by decide))

/-- C3: `detect_cycle` returns true iff the graph of every existing
dependency edge of every dep_type plus the hypothetical edge
`from_id → to_id` contains a directed cycle anywhere. The embedding's
`detect_cycle` consumes the index read-only (its type returns only a Bool),
matching the claim that the index is never mutated. -/
theorem detect_cycle_correct (idx : IssueIndex) (from_id to_id : String) :
    detect_cycle idx from_id to_id = true ↔
      HasCycle (depEdges idx ++ [(from_id, to_id)]) :=
  hasCycleB_iff (depEdges idx ++ [(from_id, to_id)])

/-- C4 counterexample: `update_issue` with a new title and an invalid
status raises the validation error, yet the target issue's title has
already changed — so validation is not raised before every mutation. -/
theorem update_issue_not_atomic :
    (Manager.update_issue 9 sampleIdx "1" (some "new") none (some "bogus") none none none
        none).2 = Except.error "Invalid status" ∧
    ((Manager.update_issue 9 sampleIdx "1" (some "new") none (some "bogus") none none none
        none).1.get_issue "1").map Issue.title ≠
      (sampleIdx.get_issue "1").map Issue.title := by
  exact ⟨rfl, by decide⟩

/-- C4 (amended): an invalid status or priority always raises the matching
validation error, and every field from the failing check onwards is
untouched — priority, assignee, blocking_notes, metadata, updated_at and
closed_at are unchanged, and the status too when the status check is the
one that fails — but the title and description (and, on a priority
failure, the status) provided in the same call have already been applied. -/
theorem update_issue_validation_partial (now : Nat) (idx : IssueIndex) (issue_id : String)
    (ti de st : Option String) (pr : Option Int) (asg bn : Option String)
    (md : Option (Dict String String)) (issue0 : Issue)
    (h0 : idx.get_issue issue_id = some issue0)
    (hbad : badStatus st = true ∨ badPriority pr = true) :
    (∃ e, (Manager.update_issue now idx issue_id ti de st pr asg bn md).2 = Except.error e ∧
      (e = "Invalid status" ∨ e = "Priority must be 0-4")) ∧
    (∃ i', (Manager.update_issue now idx issue_id ti de st pr asg bn md).1.get_issue issue_id
        = some i' ∧
      i'.priority = issue0.priority ∧ i'.assignee = issue0.assignee ∧
      i'.blocking_notes = issue0.blocking_notes ∧ i'.metadata = issue0.metadata ∧
      i'.updated_at = issue0.updated_at ∧ i'.closed_at = issue0.closed_at ∧
      (badStatus st = true → i'.status = issue0.status)) := by
  by_cases hst : badStatus st = true
  · have heq := update_issue_badStatus_eq now idx issue_id ti de st pr asg bn md issue0 h0 hst
    have hfr := updTD_frame ti de issue0
    constructor
    · exact ⟨"Invalid status", by rw [heq], Or.inl rfl⟩
    · refine ⟨updTD ti de issue0, ?_, hfr.2.1, hfr.2.2.1, hfr.2.2.2.1, hfr.2.2.2.2.1,
        hfr.2.2.2.2.2.1, hfr.2.2.2.2.2.2.1, fun _ => hfr.1⟩
      rw [heq]
      exact get_issue_setIssue_self idx issue_id _
  · have hst' : badStatus st = false := by
      revert hst
      cases badStatus st <;> simp
    have hpr : badPriority pr = true := hbad.resolve_left hst
    have heq := update_issue_badPriority_eq now idx issue_id ti de st pr asg bn md issue0 h0
      hst' hpr
    have hfr1 := updStatus_frame st (updTD ti de issue0)
    have hfr2 := updTD_frame ti de issue0
    constructor
    · exact ⟨"Priority must be 0-4", by rw [heq], Or.inr rfl⟩
    · refine ⟨updStatus st (updTD ti de issue0), ?_, hfr1.1.trans hfr2.2.1,
        hfr1.2.1.trans hfr2.2.2.1, hfr1.2.2.1.trans hfr2.2.2.2.1,
        hfr1.2.2.2.1.trans hfr2.2.2.2.2.1, hfr1.2.2.2.2.1.trans hfr2.2.2.2.2.2.1,
        hfr1.2.2.2.2.2.1.trans hfr2.2.2.2.2.2.2.1, fun h => absurd h hst⟩
      rw [heq]
      exact get_issue_setIssue_self idx issue_id _

/-- C4 witness: the amended statement at the counterexample's own input. -/
theorem update_issue_validation_partial_witness :
    (∃ e, (Manager.update_issue 9 sampleIdx "1" (some "new") none (some "bogus") none none
        none none).2 = Except.error e ∧
      (e = "Invalid status" ∨ e = "Priority must be 0-4")) ∧
    (∃ i', (Manager.update_issue 9 sampleIdx "1" (some "new") none (some "bogus") none none
        none none).1.get_issue "1" = some i' ∧
      i'.priority = (mkSampleIssue "1" "open" 2).priority ∧
      i'.assignee = (mkSampleIssue "1" "open" 2).assignee ∧
      i'.blocking_notes = (mkSampleIssue "1" "open" 2).blocking_notes ∧
      i'.metadata = (mkSampleIssue "1" "open" 2).metadata ∧
      i'.updated_at = (mkSampleIssue "1" "open" 2).updated_at ∧
      i'.closed_at = (mkSampleIssue "1" "open" 2).closed_at ∧
      (badStatus (some "bogus") = true → i'.status = (mkSampleIssue "1" "open" 2).status)) :=
  update_issue_validation_partial 9 sampleIdx "1" (some "new") none (some "bogus") none none
    none none (mkSampleIssue "1" "open" 2) (by decide) (Or.inl (by decide))

/-- C5: the unlimited result of `get_ready_issues` is sorted ascending by
priority, and a limit truncates exactly to the first `limit` entries of
that sorted sequence: limit 0 gives the empty list, and a limit at least
the result length gives the whole sequence. -/
theorem get_ready_issues_sorted_limit (idx : IssueIndex) (n : Nat) :
    List.Pairwise (fun a b => a.priority ≤ b.priority) (get_ready_issues idx none) ∧
    get_ready_issues idx (some n) = (get_ready_issues idx none).take n ∧
    get_ready_issues idx (some 0) = [] ∧
    ((get_ready_issues idx none).length ≤ n →
      get_ready_issues idx (some n) = get_ready_issues idx none) := by
  refine ⟨sorted_sortByPriority _, rfl, rfl, fun h => ?_⟩
  show (get_ready_issues idx none).take n = get_ready_issues idx none
  exact List.take_of_length_le h

/-- C5 witness: the sortedness-and-truncation statement at the sample
index with limit 2. -/
theorem get_ready_issues_sorted_limit_witness :
    List.Pairwise (fun a b => a.priority ≤ b.priority) (get_ready_issues sampleIdx none) ∧
    get_ready_issues sampleIdx (some 2) = (get_ready_issues sampleIdx none).take 2 ∧
    get_ready_issues sampleIdx (some 0) = [] ∧
    ((get_ready_issues sampleIdx none).length ≤ 2 →
      get_ready_issues sampleIdx (some 2) = get_ready_issues sampleIdx none) :=
  get_ready_issues_sorted_limit sampleIdx 2

/-- C6: a successful `update_issue` call merges the provided metadata map
key-wise into the stored metadata — every key of the map takes the map's
value and every other pre-existing key keeps its old value — rather than
replacing the dict wholesale. -/
theorem update_issue_metadata_merge (now : Nat) (idx : IssueIndex) (issue_id : String)
    (ti de st : Option String) (pr : Option Int) (asg bn : Option String)
    (m : Dict String String) (issue0 : Issue)
    (h0 : idx.get_issue issue_id = some issue0)
    (hst : badStatus st = false) (hpr : badPriority pr = false)
    (hm : (dkeys m).Nodup) :
    ∃ i', (Manager.update_issue now idx issue_id ti de st pr asg bn (some m)).2
        = Except.ok i' ∧
      (Manager.update_issue now idx issue_id ti de st pr asg bn (some m)).1.get_issue issue_id
        = some i' ∧
      i'.metadata = dictUpdate issue0.metadata m ∧
      (∀ k v, dget m k = some v → dget i'.metadata k = some v) ∧
      (∀ k, dget m k = none → dget i'.metadata k = dget issue0.metadata k) := by
  have heq := update_issue_ok now idx issue_id ti de st pr asg bn (some m) issue0 h0 hst hpr
  have hmeta : (updRest pr asg bn (some m) now (updStatus st (updTD ti de issue0))).metadata =
      dictUpdate issue0.metadata m := by
    rw [updRest_metadata_some, (updStatus_frame st (updTD ti de issue0)).2.2.2.1,
      (updTD_frame ti de issue0).2.2.2.2.1]
  refine ⟨updRest pr asg bn (some m) now (updStatus st (updTD ti de issue0)),
    by rw [heq], ?_, hmeta, ?_, ?_⟩
  · rw [heq]
    exact get_issue_setIssue_self idx issue_id _
  · intro k v hk
    rw [hmeta]
    exact dget_dictUpdate_some m hm k v hk issue0.metadata
  · intro k hk
    rw [hmeta]
    exact dget_dictUpdate_none m k hk issue0.metadata

/-- C6 witness: the merge statement at issue 2 of the sample index with
the map of the spec's own example. -/
theorem update_issue_metadata_merge_witness :
    ∃ i', (Manager.update_issue 4 sampleIdx "2" none none none none none none
        (some [("k", "v2"), ("k2", "v2")])).2 = Except.ok i' ∧
      (Manager.update_issue 4 sampleIdx "2" none none none none none none
        (some [("k", "v2"), ("k2", "v2")])).1.get_issue "2" = some i' ∧
      i'.metadata = dictUpdate (mkSampleIssue "2" "open" 1).metadata
        [("k", "v2"), ("k2", "v2")] ∧
      (∀ k v, dget [("k", "v2"), ("k2", "v2")] k = some v → dget i'.metadata k = some v) ∧
      (∀ k, dget [("k", "v2"), ("k2", "v2")] k = none →
        dget i'.metadata k = dget (mkSampleIssue "2" "open" 1).metadata k) :=
  update_issue_metadata_merge 4 sampleIdx "2" none none none none none none
    [("k", "v2"), ("k2", "v2")] (mkSampleIssue "2" "open" 1) (by decide) rfl rfl (by decide)

/-- C7: every index built from the empty index by any sequence of
add_issue, remove_issue, add_dependency, remove_dependency and clear keeps
the adjacency maps exactly coherent with the edge map — (from_id, to_id)
is a key of the dependency map iff to_id is in blockers[from_id] iff
from_id is in dependents[to_id] — and no adjacency entry holds an empty
set. -/
theorem index_coherent_of_ops (ops : List IdxOp) :
    Coherent (ops.foldl applyOp emptyIndex) :=
  coherent_foldl ops emptyIndex coherent_empty

/-- C8: closing an existing issue, whatever its prior status, forces its
status to closed and stamps closed_at and updated_at while leaving its
every other field, every other issue and every dependency structure
unchanged. -/
theorem close_issue_forces_closed (now : Nat) (idx : IssueIndex) (issue_id reason : String)
    (issue0 : Issue) (h0 : idx.get_issue issue_id = some issue0) :
    ∃ i', Manager.close_issue now idx issue_id reason
        = (setIssue idx issue_id i', Except.ok i') ∧
      i'.status = "closed" ∧ i'.closed_at = some now ∧ i'.updated_at = now ∧
      i'.id = issue0.id ∧ i'.title = issue0.title ∧ i'.description = issue0.description ∧
      i'.priority = issue0.priority ∧ i'.issue_type = issue0.issue_type ∧
      i'.assignee = issue0.assignee ∧ i'.created_at = issue0.created_at ∧
      i'.parent_id = issue0.parent_id ∧ i'.discovered_from = issue0.discovered_from ∧
      i'.blocking_notes = issue0.blocking_notes ∧ i'.metadata = issue0.metadata ∧
      (Manager.close_issue now idx issue_id reason).1.get_issue issue_id = some i' ∧
      (∀ id', id' ≠ issue_id →
        (Manager.close_issue now idx issue_id reason).1.get_issue id'
          = idx.get_issue id') ∧
      (Manager.close_issue now idx issue_id reason).1.dependencies = idx.dependencies ∧
      (Manager.close_issue now idx issue_id reason).1.blockers = idx.blockers ∧
      (Manager.close_issue now idx issue_id reason).1.dependents = idx.dependents := by
  have heq := close_issue_eq now idx issue_id reason issue0 h0
  refine ⟨{ issue0 with status := "closed", closed_at := some now, updated_at := now },
    heq, rfl, rfl, rfl, rfl, rfl, rfl, rfl, rfl, rfl, rfl, rfl, rfl, rfl, rfl,
    ?_, ?_, ?_, ?_, ?_⟩
  · rw [heq]
    exact get_issue_setIssue_self idx issue_id _
  · intro id' hne
    rw [heq]
    exact get_issue_setIssue_ne idx issue_id id' _ hne
  · rw [heq]
    rfl
  · rw [heq]
    rfl
  · rw [heq]
    rfl

/-- C8 witness: closing issue 1 of the sample index. -/
theorem close_issue_forces_closed_witness :
    ∃ i', Manager.close_issue 5 sampleIdx "1" "Done"
        = (setIssue sampleIdx "1" i', Except.ok i') ∧
      i'.status = "closed" ∧ i'.closed_at = some 5 ∧ i'.updated_at = 5 ∧
      i'.id = (mkSampleIssue "1" "open" 2).id ∧
      i'.title = (mkSampleIssue "1" "open" 2).title ∧
      i'.description = (mkSampleIssue "1" "open" 2).description ∧
      i'.priority = (mkSampleIssue "1" "open" 2).priority ∧
      i'.issue_type = (mkSampleIssue "1" "open" 2).issue_type ∧
      i'.assignee = (mkSampleIssue "1" "open" 2).assignee ∧
      i'.created_at = (mkSampleIssue "1" "open" 2).created_at ∧
      i'.parent_id = (mkSampleIssue "1" "open" 2).parent_id ∧
      i'.discovered_from = (mkSampleIssue "1" "open" 2).discovered_from ∧
      i'.blocking_notes = (mkSampleIssue "1" "open" 2).blocking_notes ∧
      i'.metadata = (mkSampleIssue "1" "open" 2).metadata ∧
      (Manager.close_issue 5 sampleIdx "1" "Done").1.get_issue "1" = some i' ∧
      (∀ id', id' ≠ "1" →
        (Manager.close_issue 5 sampleIdx "1" "Done").1.get_issue id'
          = sampleIdx.get_issue id') ∧
      (Manager.close_issue 5 sampleIdx "1" "Done").1.dependencies = sampleIdx.dependencies ∧
      (Manager.close_issue 5 sampleIdx "1" "Done").1.blockers = sampleIdx.blockers ∧
      (Manager.close_issue 5 sampleIdx "1" "Done").1.dependents = sampleIdx.dependents :=
  close_issue_forces_closed 5 sampleIdx "1" "Done" (mkSampleIssue "1" "open" 2) (by decide)

/-- C9: adding a self-dependency on an existing issue with any valid
dep_type always fails with the cycle error and leaves the dependency set
unchanged, because the hypothetical edge A → A is itself a directed
cycle. -/
theorem add_dependency_self_loop (now : Nat) (idx : IssueIndex) (a dt : String)
    (ha : (idx.get_issue a).isSome = true) (hdt : dt ∈ validDepTypes) :
    Manager.add_dependency now idx a a dt =
      (idx, Except.error "Dependency would create a cycle") ∧
    (Manager.add_dependency now idx a a dt).1.dependencies = idx.dependencies := by
  have hdc : detect_cycle idx a a = true := by
    show hasCycleB (depEdges idx ++ [(a, a)]) = true
    apply (hasCycleB_iff (depEdges idx ++ [(a, a)])).2
    exact ⟨a, [a], by simp, ⟨by simp, rfl⟩⟩
  have heq := add_dependency_detect_true now idx a a dt ha ha hdt hdc
  exact ⟨heq, by rw [heq]⟩

/-- C9 witness: a self-dependency of issue 2 with dep_type related fails
with the cycle error. -/
theorem add_dependency_self_loop_witness :
    Manager.add_dependency 3 sampleIdx "2" "2" "related" =
      (sampleIdx, Except.error "Dependency would create a cycle") ∧
    (Manager.add_dependency 3 sampleIdx "2" "2" "related").1.dependencies =
      sampleIdx.dependencies :=
  add_dependency_self_loop 3 sampleIdx "2" "related" (by decide) (by decide)

/-- C10: on the same index, an issue returned by `get_ready_issues` never
appears as the blocked member of a tuple of `get_blocked_issues`:
readiness demands zero non-closed blockers, blockedness at least one. -/
theorem ready_blocked_disjoint (idx : IssueIndex) (i : Issue) (pr : Issue × List Issue)
    (hr : i ∈ get_ready_issues idx none) (hb : pr ∈ get_blocked_issues idx) :
    pr.1 ≠ i := by
  intro he
  have h1 : hasOpenBlocker idx i = false := ((mem_ready_iff idx i).1 hr).2.2
  have h2 : hasOpenBlocker idx pr.1 = true :=
    mem_blocked_hasOpenBlocker idx pr.1 pr.2 (by simpa using hb)
  rw [he, h1] at h2
  exact Bool.noConfusion h2

/-- C10 witness: at the sample index, the blocked tuple for issue 1 does
not coincide with the ready issue 3. -/
theorem ready_blocked_disjoint_witness :
    (mkSampleIssue "1" "open" 2, [mkSampleIssue "2" "open" 1]).1 ≠ mkSampleIssue "3" "open" 0 :=
  ready_blocked_disjoint sampleIdx (mkSampleIssue "3" "open" 0)
    (mkSampleIssue "1" "open" 2, [mkSampleIssue "2" "open" 1]) (by decide) (by decide)

end IssueManager
